import Mathlib

/-!
Shallow embedding of the smart-home device controller and wire-protocol
subsystem (Rust crate `smart-home-lib`).

Modelling conventions:
* `f64` power/temperature values are embedded as `ℚ` where the claims are
  about state arithmetic (controllers, emulators).  Where the claims are
  about JSON serialization, the numeric payload is embedded as the decimal
  token `serde_json` prints for the value (a `String`); on finite doubles
  that printing is injective and exactly inverted by parsing, so equality
  of tokens coincides with `f64` equality.  The protocol data types are
  therefore parametrized by the numeric payload type.
* Mutex/RwLock-protected state is embedded as explicit state passing.
  Lock poisoning (only reachable when a thread panics while holding the
  lock) is modelled by an explicit `lock_poisoned : Bool` argument exactly
  where the source has a visible poisoned-lock branch.
* Byte streams are `List Nat` (each entry a byte value), pull-style:
  `read_exact` consumes a prefix and returns the rest.
* Async I/O, timeouts and threads are outside the embedding; the
  response-handling step of a network exchange takes the received
  response as an argument.
-/

/-! ## Device value objects (`devices/smart_socket.rs`, `devices/smart_therm.rs`)

`Watts` and `Celsius` are newtypes over `f64`; they are embedded directly
as `ℚ`.  (`Watts::new` / `Celsius::new` panic on out-of-range input; where
that guard matters — the thermometer listener validates a received
temperature once before taking the write lock and once inside it — the
panic is modelled explicitly as `Option`, in `Celsius.new` and
`SmartTherm.set_temperature` below.) -/

structure SmartSocket where
  is_active : Bool
  power_rating : ℚ
  current_power : ℚ
deriving DecidableEq

/-- `SmartSocket::new(power_rating)`: inactive, zero current power. -/
def SmartSocket.new (power_rating : ℚ) : SmartSocket :=
  ⟨false, power_rating, 0⟩

/-- `SmartSocket::turn_on`: activates and draws the rated power. -/
def SmartSocket.turn_on (s : SmartSocket) : SmartSocket :=
  { s with is_active := true, current_power := s.power_rating }

/-- `SmartSocket::turn_off`: deactivates and stops drawing power. -/
def SmartSocket.turn_off (s : SmartSocket) : SmartSocket :=
  { s with is_active := false, current_power := 0 }

/-- `SmartSocket::set_current_power`: overwrites the drawn power only. -/
def SmartSocket.set_current_power (s : SmartSocket) (power : ℚ) : SmartSocket :=
  { s with current_power := power }

structure SmartTherm where
  temperature : ℚ
deriving DecidableEq

/-- `SmartTherm::new(temperature)`. -/
def SmartTherm.new (temperature : ℚ) : SmartTherm :=
  ⟨temperature⟩

/-- `ABSOLUTE_ZERO_C` (`units/celsius.rs`): −273.15 °C. -/
def ABSOLUTE_ZERO_C : ℚ := -27315 / 100

/-- `Celsius::new` with its panic made explicit: `none` models the
"Temperature below absolute zero" panic. -/
def Celsius.new (value : ℚ) : Option ℚ :=
  if value < ABSOLUTE_ZERO_C then none else some value

/-- `SmartTherm::set_temperature`, panic made explicit: it rebuilds the
stored `Celsius` via `Celsius::new`, so it panics exactly when the
temperature is below absolute zero. -/
def SmartTherm.set_temperature (s : SmartTherm) (temperature : ℚ) :
    Option SmartTherm :=
  (Celsius.new temperature).map fun c => { s with temperature := c }

/-! ## Protocol data types (`protocol/socket_protocol.rs`, `protocol/therm_protocol.rs`)

The numeric payload type is a parameter: `ℚ` for state reasoning,
decimal-token `String` for serialization reasoning (see the header). -/

inductive SocketCommand where
  | TurnOn
  | TurnOff
  | Power
deriving DecidableEq

structure SocketData (Num : Type) where
  active : Bool
  power : Num
  device_id : Option String
deriving DecidableEq

inductive SocketResponse (Num : Type) where
  | Ok (data : SocketData Num)
  | Error (message : String)
deriving DecidableEq

structure ThermData (Num : Type) where
  temperature : Num
  device_id : Option String
deriving DecidableEq

/-! ## Socket controller (`controllers/socket_controller.rs`) -/

inductive SocketError where
  | ConnectionError (msg : String)
  | CommandError (msg : String)
  | DeviceError (msg : String)
  | LockError
  | Timeout
deriving DecidableEq

/-- Response-handling step of `SocketController::send_command_and_sync`
(lines 112–127): the network exchange is modelled by the received
`response` argument.  On `Ok(data)` the local model is synchronized by
calling `turn_on`/`turn_off` according to `data.active`; on `Error` the
local model is untouched and a `DeviceError` is returned.  (The write-lock
acquisition cannot fail here: no code path panics while holding this
lock, so it is embedded as direct state access.) -/
def SocketController.send_command_and_sync (socket : SmartSocket)
    (response : SocketResponse ℚ) : SmartSocket × Except SocketError (SocketData ℚ) :=
  match response with
  | .Ok data =>
      (if data.active then socket.turn_on else socket.turn_off, .ok data)
  | .Error message => (socket, .error (.DeviceError message))

/-- Folds a sequence of received responses through the synchronization
step, tracking only the local model (the controller state over a run). -/
def SocketController.run_syncs (responses : List (SocketResponse ℚ))
    (socket : SmartSocket) : SmartSocket :=
  responses.foldl (fun s r => (SocketController.send_command_and_sync s r).1) socket

/-- `SocketController::device` (lines 149–155): clones the local model
under the read lock, mapping a poisoned lock to `Err(LockError)`. -/
def SocketController.device (lock_poisoned : Bool) (socket : SmartSocket) :
    Except SocketError SmartSocket :=
  if lock_poisoned then .error .LockError else .ok socket

/-! ## Thermometer controller (`controllers/therm_controller.rs`) -/

inductive ThermError where
  | NoFreshData
  | NetworkError (msg : String)
  | LockError
deriving DecidableEq

/-- `ThermController::temperature` (lines 169–189).  `last_update` is the
stored millisecond timestamp (`0` = never received), `now` the value
`now_ms()` returns at the call, `max_age_ms` = `max_age.as_millis()`.
The final read of the `RwLock` maps a poisoned lock to `LockError`. -/
def ThermController.temperature (last_update now max_age_ms : Nat)
    (lock_poisoned : Bool) (temp : ℚ) : Except ThermError ℚ :=
  if last_update = 0 then .error .NoFreshData
  else if now - last_update > max_age_ms then .error .NoFreshData
  else if lock_poisoned then .error .LockError
  else .ok temp

/-- `ThermController::device` (lines 191–197): clones the thermometer
under the read lock, but maps a poisoned lock to `SmartTherm::new(0.0)`
via `unwrap_or_else` — a fabricated default returned as a plain value. -/
def ThermController.device (lock_poisoned : Bool) (therm : SmartTherm) : SmartTherm :=
  if lock_poisoned then SmartTherm.new 0 else therm

/-- Outcome of the listener thread handling one received datagram.
`poisoned_lock` is the one outcome that would poison the therm `RwLock`
(a panic while the write guard is held); `died_before_lock` is a panic
before the lock is touched, which kills the thread but poisons
nothing. -/
inductive ListenerOutcome where
  | updated (therm : SmartTherm) (last_update : Nat)
  | dropped
  | died_before_lock
  | poisoned_lock
deriving DecidableEq

/-- The listener's handling of one datagram
(`therm_controller.rs` lines 116–140, the `Ok` branch of `recv_from`):
a datagram that is not UTF-8 or not valid `ThermData` JSON is silently
dropped (`datagram = none`); a parsed sample is validated by
`Celsius::new` at line 120 — a panic there (temperature below absolute
zero) kills the thread before the timestamp store at line 122 and
before `therm.write()` at line 125 — and only then is the write lock
taken and `set_temperature` run inside the guard at line 126, where a
panic would poison the lock. -/
def listener_handle_datagram (therm : SmartTherm) (now : Nat)
    (datagram : Option (ThermData ℚ)) : ListenerOutcome :=
  match datagram with
  | none => .dropped
  | some data =>
    match Celsius.new data.temperature with
    | none => .died_before_lock
    | some _ =>
      match therm.set_temperature data.temperature with
      | some therm' => .updated therm' now
      | none => .poisoned_lock

/-! ## Socket emulator (`emulators/socket_emulator.rs`) -/

structure EmulatorConfig where
  bind_address : String
  power_rating : ℚ
  device_id : String
deriving DecidableEq

structure SocketState where
  active : Bool
  current_power : ℚ
  device_id : Option String
deriving DecidableEq

/-- `SocketState::new()`: inactive, zero power, no id. -/
def SocketState.new : SocketState :=
  ⟨false, 0, none⟩

/-- `SocketState::with_device_id`. -/
def SocketState.with_device_id (s : SocketState) (device_id : String) : SocketState :=
  { s with device_id := some device_id }

/-- `SocketState::turn_on(power_rating)`. -/
def SocketState.turn_on (s : SocketState) (power_rating : ℚ) : SocketState :=
  { s with active := true, current_power := power_rating }

/-- `SocketState::turn_off`. -/
def SocketState.turn_off (s : SocketState) : SocketState :=
  { s with active := false, current_power := 0 }

/-- `SocketState::to_data`: the snapshot sent back to clients. -/
def SocketState.to_data (s : SocketState) : SocketData ℚ :=
  ⟨s.active, s.current_power, s.device_id⟩

/-- `SocketEmulator::process_command` (lines 275–301), returning the state
after the command together with the response.  (The state mutex cannot be
poisoned: no holder of the guard panics, so the `Err` branch of
`state.lock()` is dead code and the lock is embedded as state passing.) -/
def SocketEmulator.process_command (command : SocketCommand) (state : SocketState)
    (config : EmulatorConfig) : SocketState × SocketResponse ℚ :=
  match command with
  | .TurnOn =>
      let state' := state.turn_on config.power_rating
      (state', .Ok state'.to_data)
  | .TurnOff =>
      let state' := state.turn_off
      (state', .Ok state'.to_data)
  | .Power => (state, .Ok state.to_data)

/-- Folds a command sequence through the emulator, tracking the shared
outlet state (mutation is serialized by the mutex, so any interleaving of
concurrent clients is some such sequence). -/
def SocketEmulator.run_commands (commands : List SocketCommand) (state : SocketState)
    (config : EmulatorConfig) : SocketState :=
  commands.foldl (fun st c => (SocketEmulator.process_command c st config).1) state

/-- Outlet-state invariant for the controller's local model (the
configured rating is the one stored in the model). -/
def SmartSocket.invariant (s : SmartSocket) : Prop :=
  (s.is_active = false → s.current_power = 0) ∧
  (s.is_active = true → s.current_power = s.power_rating)

/-- Outlet-state invariant for the emulator's shared state, with respect
to the configured rating. -/
def SocketState.invariant (rating : ℚ) (s : SocketState) : Prop :=
  (s.active = false → s.current_power = 0) ∧
  (s.active = true → s.current_power = rating)

/-! ## Thermometer emulator (`emulators/therm_emulator.rs`, `emulators/scenario.rs`) -/

inductive EmulationScenario where
  | Normal
  | Fire
  | Freeze
  | Fluctuate
deriving DecidableEq

/-- `ThermEmulator::update_temperature` (lines 118–140).  The random
sample the matched arm requests from `rng.random_range(..)` is the
explicit `draw` argument; `draw_range` below records the range each arm
requests. -/
def ThermEmulator.update_temperature (current_temp : ℚ)
    (scenario : EmulationScenario) (draw : ℚ) : ℚ :=
  match scenario with
  | .Normal => current_temp + draw
  | .Fire => current_temp + draw
  | .Freeze => current_temp - draw
  | .Fluctuate => current_temp + draw

/-- The inclusive range passed to `rng.random_range` by each scenario arm
of `update_temperature`: `-0.5..=0.5`, `1.0..=3.0`, `1.0..=3.0` (then
subtracted), `-2.0..=2.0`. -/
def ThermEmulator.draw_range (scenario : EmulationScenario) (draw : ℚ) : Prop :=
  match scenario with
  | .Normal => -(1/2) ≤ draw ∧ draw ≤ 1/2
  | .Fire => 1 ≤ draw ∧ draw ≤ 3
  | .Freeze => 1 ≤ draw ∧ draw ≤ 3
  | .Fluctuate => -2 ≤ draw ∧ draw ≤ 2

/-! ## Wire framing (`protocol/socket_protocol.rs`, lines 38–81)

Bytes are `Nat` values < 256; a stream is a `List Nat` consumed from the
front. -/

/-- Big-endian bytes of `length as u32` (the `usize → u32` cast wraps
modulo `2^32`; the four `% 256` projections realize exactly that wrap). -/
def toBE32 (n : Nat) : List Nat :=
  [n / 2 ^ 24 % 256, n / 2 ^ 16 % 256, n / 2 ^ 8 % 256, n % 256]

/-- `u32::from_be_bytes` on a 4-byte header. -/
def fromBE32 : List Nat → Nat
  | [a, b, c, d] => ((a * 256 + b) * 256 + c) * 256 + d
  | _ => 0

/-- UTF-8 bytes of one scalar value (`str::as_bytes`, per codepoint). -/
def utf8_encode_char (c : Char) : List Nat :=
  let n := c.toNat
  if n < 0x80 then [n]
  else if n < 0x800 then [0xC0 + n / 64, 0x80 + n % 64]
  else if n < 0x10000 then
    [0xE0 + n / 4096, 0x80 + n / 64 % 64, 0x80 + n % 64]
  else
    [0xF0 + n / 0x40000, 0x80 + n / 4096 % 64, 0x80 + n / 64 % 64, 0x80 + n % 64]

/-- UTF-8 bytes of a string. -/
def utf8_encode (s : List Char) : List Nat :=
  (s.map utf8_encode_char).flatten

/-- Is `b` a UTF-8 continuation byte? -/
def utf8_cont (b : Nat) : Bool :=
  0x80 ≤ b && b < 0xC0

/-- Strict UTF-8 decoding automaton: the state is `none` when a leading
byte is expected, and `some (acc, k, low)` in the middle of a sequence —
`acc` the codepoint bits read so far, `k` the continuation bytes still
owed, `low` the smallest codepoint the sequence length may canonically
encode (the overlong guard). -/
def utf8_decode_impl : Option (Nat × Nat × Nat) → List Nat → Option (List Char)
  | none, [] => some []
  | some _, [] => none
  | none, b :: rest =>
    if b < 0x80 then (utf8_decode_impl none rest).map (fun cs => Char.ofNat b :: cs)
    else if b < 0xC0 then none
    else if b < 0xE0 then utf8_decode_impl (some (b - 0xC0, 1, 0x80)) rest
    else if b < 0xF0 then utf8_decode_impl (some (b - 0xE0, 2, 0x800)) rest
    else if b < 0xF8 then utf8_decode_impl (some (b - 0xF0, 3, 0x10000)) rest
    else none
  | some (acc, k, low), b :: rest =>
    if utf8_cont b then
      let acc' := acc * 64 + (b - 0x80)
      if k ≤ 1 then
        if low ≤ acc' ∧ ¬(0xD800 ≤ acc' ∧ acc' ≤ 0xDFFF) ∧ acc' ≤ 0x10FFFF then
          (utf8_decode_impl none rest).map (fun cs => Char.ofNat acc' :: cs)
        else none
      else utf8_decode_impl (some (acc', k - 1, low)) rest
    else none

/-- Strict UTF-8 decoding (`String::from_utf8`): rejects stray or missing
continuation bytes, overlong forms, surrogates and out-of-range values. -/
def utf8_decode (bytes : List Nat) : Option (List Char) :=
  utf8_decode_impl none bytes

/-- The receive-side DoS guard: 1 MiB. -/
def MAX_MESSAGE_SIZE : Nat := 1024 * 1024

/-- `send_message` (lines 38–55): 4-byte big-endian length header (the
payload byte length cast to `u32`) followed by the payload bytes.  There
is no size check on the send side. -/
def send_message (message : List Char) : List Nat :=
  let bytes := utf8_encode message
  toBE32 bytes.length ++ bytes

/-- `AsyncReadExt::read_exact`: consumes exactly `n` bytes or fails with
`UnexpectedEof` (modelled as `none`) when the stream ends first. -/
def read_exact (n : Nat) (stream : List Nat) : Option (List Nat × List Nat) :=
  if n ≤ stream.length then some (stream.take n, stream.drop n) else none

/-- Receive-side failures of `receive_message`.  In the source,
`UnexpectedEof` is `io::ErrorKind::UnexpectedEof` from `read_exact`;
`MessageTooLarge` is the `InvalidData` error `"Message too large"`;
`InvalidUtf8` is the `InvalidData` error from `String::from_utf8`. -/
inductive RecvError where
  | UnexpectedEof
  | MessageTooLarge
  | InvalidUtf8
deriving DecidableEq

/-- `receive_message` (lines 58–81): reads the 4-byte header, rejects a
declared length over 1 MiB before reading any payload, then reads exactly
`length` payload bytes and converts them to a string.  Returns the
message and the unconsumed rest of the stream. -/
def receive_message (stream : List Nat) : Except RecvError (List Char × List Nat) :=
  match read_exact 4 stream with
  | none => .error .UnexpectedEof
  | some (header, rest) =>
    let length := fromBE32 header
    if length > MAX_MESSAGE_SIZE then .error .MessageTooLarge
    else
      match read_exact length rest with
      | none => .error .UnexpectedEof
      | some (payload, rest') =>
        match utf8_decode payload with
        | none => .error .InvalidUtf8
        | some chars => .ok (chars, rest')

/-! ## JSON layer (derived `serde` impls with `serde_json`)

Every message of this protocol is a flat JSON object mapping string keys
to scalar values (`null` / boolean / number / string) — the derived
internally-tagged enums flatten their payload fields into the tagged
object, and no field is itself a container.  The embedding models
`serde_json::to_string` as printing such an object in compact form (no
whitespace, fields in declaration order, tag first) and
`serde_json::from_str` as parsing a flat scalar object and then matching
fields by name (unknown fields ignored, any field order accepted, a
missing `Option` field defaulting to `None`), which is how the derived
deserializers treat the object.  Number payloads stay as their printed
token; strings are escaped for `"` and `\`.  (Control characters, which
`serde_json` escapes, never occur in well-formed inputs below.) -/

inductive JVal where
  | null
  | bool (b : Bool)
  | num (tok : String)
  | str (s : String)
deriving DecidableEq

/-- JSON string-body escaping for `"` and `\`. -/
def escape_string : List Char → List Char
  | [] => []
  | c :: cs =>
    if c = '"' ∨ c = '\\' then '\\' :: c :: escape_string cs
    else c :: escape_string cs

/-- Compact printing of a scalar value. -/
def print_scalar : JVal → List Char
  | .null => 'n' :: ['u', 'l', 'l']
  | .bool b => if b then 't' :: ['r', 'u', 'e'] else 'f' :: ['a', 'l', 's', 'e']
  | .num tok => tok.data
  | .str s => '"' :: (escape_string s.data ++ ['"'])

/-- Compact printing of one `"key":value` member. -/
def print_pair (p : String × JVal) : List Char :=
  '"' :: (escape_string p.1.data ++ '"' :: ':' :: print_scalar p.2)

/-- Compact printing of the member list, comma-separated. -/
def print_members : List (String × JVal) → List Char
  | [] => []
  | [p] => print_pair p
  | p :: ps => print_pair p ++ ',' :: print_members ps

/-- Compact printing of a flat object (`serde_json::to_string`). -/
def print_obj (m : List (String × JVal)) : List Char :=
  '\x7b' :: (print_members m ++ ['\x7d'])

/-- First character of a JSON number token. -/
def num_start (c : Char) : Bool :=
  (48 ≤ c.toNat && c.toNat ≤ 57) || c = '-'

/-- Characters that may occur in a JSON number token. -/
def num_char (c : Char) : Bool :=
  (48 ≤ c.toNat && c.toNat ≤ 57) || c = '.' || c = '-' || c = '+' || c = 'e' || c = 'E'

/-- Character-at-a-time scanner for a JSON string body after the opening
quote; `esc` records that the previous character was an unconsumed
backslash.  It understands the `\"` and `\\` escapes `escape_string`
produces. -/
def parse_string_impl : Bool → List Char → Option (List Char × List Char)
  | _, [] => none
  | true, e :: rest =>
    if e = '"' ∨ e = '\\' then
      (parse_string_impl false rest).map (fun p => (e :: p.1, p.2))
    else none
  | false, c :: rest =>
    if c = '"' then some ([], rest)
    else if c = '\\' then parse_string_impl true rest
    else (parse_string_impl false rest).map (fun p => (c :: p.1, p.2))

/-- Parses a JSON string body after the opening quote, up to and past the
closing quote. -/
def parse_string_body (cs : List Char) : Option (List Char × List Char) :=
  parse_string_impl false cs

/-- Consumes an expected literal character sequence off the input. -/
def expect_lit : List Char → List Char → Option (List Char)
  | [], rest => some rest
  | _ :: _, [] => none
  | l :: ls, c :: rest => if c = l then expect_lit ls rest else none

/-- Parses one scalar value off the front of the input. -/
def parse_scalar (cs : List Char) : Option (JVal × List Char) :=
  match cs with
  | [] => none
  | c :: rest =>
    if c = 'n' then (expect_lit ['u', 'l', 'l'] rest).map (fun r => (.null, r))
    else if c = 't' then (expect_lit ['r', 'u', 'e'] rest).map (fun r => (.bool true, r))
    else if c = 'f' then
      (expect_lit ['a', 'l', 's', 'e'] rest).map (fun r => (.bool false, r))
    else if c = '"' then
      (parse_string_body rest).map (fun p => (.str (String.mk p.1), p.2))
    else if num_start c then
      some (.num (String.mk (c :: rest.takeWhile num_char)), rest.dropWhile num_char)
    else none

/-- Parses the member list of a non-empty flat object, consuming the
closing brace; `fuel` bounds the recursion (any `fuel ≥` the number of
members suffices). -/
def parse_members : Nat → List Char → Option (List (String × JVal) × List Char)
  | 0, _ => none
  | fuel + 1, cs =>
    match cs with
    | [] => none
    | c :: rest =>
      if c = '"' then
        match parse_string_body rest with
        | none => none
        | some (key, r1) =>
          match r1 with
          | [] => none
          | d :: r2 =>
            if d = ':' then
              match parse_scalar r2 with
              | none => none
              | some (v, r3) =>
                match r3 with
                | [] => none
                | e :: r4 =>
                  if e = ',' then
                    match parse_members fuel r4 with
                    | none => none
                    | some (m, r5) => some ((String.mk key, v) :: m, r5)
                  else if e = '\x7d' then some ([(String.mk key, v)], r4)
                  else none
            else none
      else none

/-- Parses a flat object off the front of the input. -/
def parse_obj (cs : List Char) : Option (List (String × JVal) × List Char) :=
  match cs with
  | [] => none
  | c :: rest =>
    if c = '\x7b' then
      match rest with
      | [] => none
      | d :: rest2 =>
        if d = '\x7d' then some ([], rest2)
        else parse_members rest.length rest
    else none

/-- `serde_json::from_str` front end: the whole input must be one object
(no trailing input). -/
def parse_document (cs : List Char) : Option (List (String × JVal)) :=
  match parse_obj cs with
  | some (m, []) => some m
  | _ => none

/-- Serialization of an `Option<String>` field. -/
def jopt : Option String → JVal
  | none => .null
  | some s => .str s

/-- Field access: object member by name (first occurrence), as the
derived deserializers match fields. -/
def jget (m : List (String × JVal)) (key : String) : Option JVal :=
  match m with
  | [] => none
  | p :: ps => if p.1 = key then some p.2 else jget ps key

/-- Expects a boolean field value. -/
def as_bool : Option JVal → Option Bool
  | some (.bool b) => some b
  | _ => none

/-- Expects a number field value (kept as its token). -/
def as_num : Option JVal → Option String
  | some (.num t) => some t
  | _ => none

/-- Expects a string field value. -/
def as_str : Option JVal → Option String
  | some (.str s) => some s
  | _ => none

/-- Expects an `Option<String>` field value: absent or `null` is `None`. -/
def as_opt_str : Option JVal → Option (Option String)
  | none => some none
  | some .null => some none
  | some (.str s) => some (some s)
  | _ => none

/-- Serialization of `SocketCommand` (`#[serde(tag = "command")]`, unit
variants renamed `turn_on` / `turn_off` / `power`). -/
def SocketCommand.to_json : SocketCommand → List (String × JVal)
  | .TurnOn => [("command", .str "turn_on")]
  | .TurnOff => [("command", .str "turn_off")]
  | .Power => [("command", .str "power")]

/-- Deserialization of `SocketCommand`: dispatch on the tag field. -/
def SocketCommand.from_json (m : List (String × JVal)) : Option SocketCommand :=
  match as_str (jget m "command") with
  | some tag =>
    if tag = "turn_on" then some .TurnOn
    else if tag = "turn_off" then some .TurnOff
    else if tag = "power" then some .Power
    else none
  | none => none

/-- Serialization of `SocketResponse` (`#[serde(tag = "result")]`; the
`Ok(SocketData)` payload fields are flattened after the tag). -/
def SocketResponse.to_json : SocketResponse String → List (String × JVal)
  | .Ok d =>
      [("result", .str "ok"), ("active", .bool d.active),
       ("power", .num d.power), ("device_id", jopt d.device_id)]
  | .Error message => [("result", .str "error"), ("message", .str message)]

/-- Deserialization of the flattened `SocketData` payload. -/
def SocketData.from_json (m : List (String × JVal)) : Option (SocketData String) := do
  let active ← as_bool (jget m "active")
  let power ← as_num (jget m "power")
  let device_id ← as_opt_str (jget m "device_id")
  pure ⟨active, power, device_id⟩

/-- Deserialization of `SocketResponse`: dispatch on the tag field, then
read the variant payload from the same object. -/
def SocketResponse.from_json (m : List (String × JVal)) : Option (SocketResponse String) :=
  match as_str (jget m "result") with
  | some tag =>
    if tag = "ok" then (SocketData.from_json m).map .Ok
    else if tag = "error" then (as_str (jget m "message")).map .Error
    else none
  | none => none

/-- Serialization of `ThermData` (plain struct, fields in order). -/
def ThermData.to_json (d : ThermData String) : List (String × JVal) :=
  [("temperature", .num d.temperature), ("device_id", jopt d.device_id)]

/-- Deserialization of `ThermData`. -/
def ThermData.from_json (m : List (String × JVal)) : Option (ThermData String) := do
  let temperature ← as_num (jget m "temperature")
  let device_id ← as_opt_str (jget m "device_id")
  pure ⟨temperature, device_id⟩

/-- `serde_json::to_string` of a command. -/
def to_string_command (c : SocketCommand) : List Char :=
  print_obj c.to_json

/-- `serde_json::from_str::<SocketCommand>`. -/
def from_str_command (s : List Char) : Option SocketCommand :=
  (parse_document s).bind SocketCommand.from_json

/-- `serde_json::to_string` of a response. -/
def to_string_response (r : SocketResponse String) : List Char :=
  print_obj r.to_json

/-- `serde_json::from_str::<SocketResponse>`. -/
def from_str_response (s : List Char) : Option (SocketResponse String) :=
  (parse_document s).bind SocketResponse.from_json

/-- `serde_json::to_string` of a thermometer sample. -/
def to_string_therm (d : ThermData String) : List Char :=
  print_obj d.to_json

/-- `serde_json::from_str::<ThermData>`. -/
def from_str_therm (s : List Char) : Option (ThermData String) :=
  (parse_document s).bind ThermData.from_json

/-- TCP round trip of a command: `send_command` writes the framed JSON,
`receive_command` reads one frame and parses it back. -/
def round_trip_command (c : SocketCommand) : Option SocketCommand :=
  match receive_message (send_message (to_string_command c)) with
  | .ok (s, _) => from_str_command s
  | .error _ => none

/-- TCP round trip of a response (`send_response` / `receive_response`). -/
def round_trip_response (r : SocketResponse String) : Option (SocketResponse String) :=
  match receive_message (send_message (to_string_response r)) with
  | .ok (s, _) => from_str_response s
  | .error _ => none

/-- UDP round trip of a thermometer sample: the serialized JSON is the
whole datagram (no framing header), parsed back on receipt. -/
def round_trip_therm (d : ThermData String) : Option (ThermData String) :=
  from_str_therm (to_string_therm d)

/-! ## Well-formedness of serialization inputs

These delimit the embedding of `f64`/UTF-8 text: string payloads are
printable ASCII (no control characters — which `serde_json` would escape
differently — and no multi-byte codepoints), and number payloads are the
decimal tokens `serde_json` prints for finite doubles. -/

/-- Printable ASCII character. -/
def ascii_clean (c : Char) : Prop :=
  0x20 ≤ c.toNat ∧ c.toNat < 0x80

instance (c : Char) : Decidable (ascii_clean c) := by
  unfold ascii_clean; infer_instance

/-- String payload well-formedness. -/
def str_wf (s : String) : Prop :=
  ∀ c ∈ s.data, ascii_clean c

instance (s : String) : Decidable (str_wf s) := by
  unfold str_wf; infer_instance

/-- Optional string payload well-formedness. -/
def opt_str_wf : Option String → Prop
  | none => True
  | some s => str_wf s

instance (o : Option String) : Decidable (opt_str_wf o) := by
  cases o <;> simp only [opt_str_wf] <;> infer_instance

/-- Number-token well-formedness: nonempty, starts like a number, made of
number characters (true of every token `serde_json` prints for a finite
`f64`). -/
def num_tok_wf (t : String) : Prop :=
  (match t.data with
   | [] => False
   | c :: _ => num_start c = true) ∧
  ∀ c ∈ t.data, num_char c = true

instance (t : String) : Decidable (num_tok_wf t) := by
  unfold num_tok_wf
  cases t.data <;> simp only <;> infer_instance

/-- Well-formedness of a response's payload fields. -/
def response_wf : SocketResponse String → Prop
  | .Ok d => num_tok_wf d.power ∧ opt_str_wf d.device_id
  | .Error message => str_wf message

instance (r : SocketResponse String) : Decidable (response_wf r) := by
  cases r <;> simp only [response_wf] <;> infer_instance

/-- Well-formedness of a thermometer sample's payload fields. -/
def therm_wf (d : ThermData String) : Prop :=
  num_tok_wf d.temperature ∧ opt_str_wf d.device_id

instance (d : ThermData String) : Decidable (therm_wf d) := by
  unfold therm_wf; infer_instance

/-- Scalar-value well-formedness needed for parsing back: number tokens
must be well-formed; the other scalars parse back unconditionally. -/
def jval_tok_wf : JVal → Prop
  | .num tok => num_tok_wf tok
  | _ => True

/-- All member values of a flat object are parseable back. -/
def members_tok_wf (m : List (String × JVal)) : Prop :=
  ∀ p ∈ m, jval_tok_wf p.2

/-- ASCII bound on a scalar's text payload. -/
def jval_ascii : JVal → Prop
  | .num tok => ∀ c ∈ tok.data, c.toNat < 0x80
  | .str s => ∀ c ∈ s.data, c.toNat < 0x80
  | _ => True

/-- ASCII bound on all keys and payloads of a flat object. -/
def members_ascii (m : List (String × JVal)) : Prop :=
  ∀ p ∈ m, (∀ c ∈ p.1.data, c.toNat < 0x80) ∧ jval_ascii p.2

/-- An error message of 2^20 `x` characters: its serialized frame
declares a length over 1 MiB. -/
def big_message : String :=
  String.mk (List.replicate (2 ^ 20) 'x')

/-- The oversized response used to refute the unbounded round-trip
claim. -/
def big_response : SocketResponse String :=
  .Error big_message

/-! ## Helper lemmas -/

/-- A freshly built local model satisfies the outlet invariant. -/
theorem SmartSocket.invariant_new (rating : ℚ) : (SmartSocket.new rating).invariant :=
  show _ ∧ _ from ⟨fun _ => rfl, fun h => Bool.noConfusion h⟩

/-- `turn_on` establishes the outlet invariant outright. -/
theorem SmartSocket.invariant_turn_on (s : SmartSocket) : s.turn_on.invariant :=
  show _ ∧ _ from ⟨fun h => Bool.noConfusion h, fun _ => rfl⟩

/-- `turn_off` establishes the outlet invariant outright. -/
theorem SmartSocket.invariant_turn_off (s : SmartSocket) : s.turn_off.invariant :=
  show _ ∧ _ from ⟨fun _ => rfl, fun h => Bool.noConfusion h⟩

/-- The synchronization step preserves the outlet invariant on the local
model. -/
theorem SocketController.sync_preserves_invariant (s : SmartSocket)
    (r : SocketResponse ℚ) (h : s.invariant) :
    (SocketController.send_command_and_sync s r).1.invariant := by
  cases r with
  | Ok data =>
    cases ha : data.active <;>
      simp only [SocketController.send_command_and_sync, ha, if_true, if_false,
        Bool.false_eq_true, ite_false, ite_true]
    · exact SmartSocket.invariant_turn_off s
    · exact SmartSocket.invariant_turn_on s
  | Error message => exact h

/-- Folding responses from any invariant-satisfying model keeps the
invariant. -/
theorem SocketController.run_syncs_invariant (responses : List (SocketResponse ℚ))
    (s : SmartSocket) (h : s.invariant) :
    (SocketController.run_syncs responses s).invariant := by
  induction responses generalizing s with
  | nil => exact h
  | cons r rs ih =>
    exact ih _ (SocketController.sync_preserves_invariant s r h)

/-- One emulator command preserves the shared-state invariant. -/
theorem SocketEmulator.process_preserves_invariant (c : SocketCommand)
    (st : SocketState) (config : EmulatorConfig)
    (h : st.invariant config.power_rating) :
    (SocketEmulator.process_command c st config).1.invariant config.power_rating := by
  cases c with
  | TurnOn => exact show _ ∧ _ from ⟨fun h' => Bool.noConfusion h', fun _ => rfl⟩
  | TurnOff => exact show _ ∧ _ from ⟨fun _ => rfl, fun h' => Bool.noConfusion h'⟩
  | Power => exact h

/-- Any command sequence from an invariant-satisfying shared state keeps
the invariant. -/
theorem SocketEmulator.run_commands_invariant (commands : List SocketCommand)
    (st : SocketState) (config : EmulatorConfig)
    (h : st.invariant config.power_rating) :
    (SocketEmulator.run_commands commands st config).invariant config.power_rating := by
  induction commands generalizing st with
  | nil => exact h
  | cons c cs ih =>
    exact ih _ (SocketEmulator.process_preserves_invariant c st config h)

/-! ## Claim theorems: controller and emulator state machines -/

/-- C1 (counterexample): a socket-controller operation that receives
`Ok(snapshot)` with `active = true, power = 42` on a controller
configured with rating 1500 leaves the local model at power 1500, not at
the snapshot's power 42 — the local power field is not copied from the
snapshot. -/
theorem socket_sync_snapshot_power_counterexample :
    (SocketController.send_command_and_sync (SmartSocket.new 1500)
        (.Ok ⟨true, 42, none⟩)).1.is_active = true ∧
    (SocketController.send_command_and_sync (SmartSocket.new 1500)
        (.Ok ⟨true, 42, none⟩)).1.current_power = 1500 ∧
    (1500 : ℚ) ≠ 42 :=
  ⟨rfl, rfl, by norm_num⟩

/-- C1 (amended): on `Ok(snapshot)` the local model's `active` field is
synchronized from the snapshot, while its `power` field is set to the
controller's configured rating when the snapshot is active and to 0
otherwise (so it equals the snapshot's power exactly when the snapshot
respects the outlet invariant for that rating); the rating itself is
unchanged and the snapshot is returned to the caller. -/
theorem socket_sync_sets_local_model (socket : SmartSocket) (data : SocketData ℚ) :
    (SocketController.send_command_and_sync socket (.Ok data)).1.is_active = data.active ∧
    (SocketController.send_command_and_sync socket (.Ok data)).1.current_power =
      (if data.active then socket.power_rating else 0) ∧
    (SocketController.send_command_and_sync socket (.Ok data)).1.power_rating =
      socket.power_rating ∧
    (SocketController.send_command_and_sync socket (.Ok data)).2 = .ok data := by
  cases data with
  | mk a p id =>
    cases a <;>
      simp [SocketController.send_command_and_sync, SmartSocket.turn_on,
        SmartSocket.turn_off]

/-- C2: `temperature()` returns `Err(NoFreshData)` exactly when no sample
was ever received (`last_update = 0`) or the age `now − last_update`
exceeds `max_age`; it returns `Ok` of the stored temperature exactly when
data is fresh and the read lock is healthy (no network access occurs: the
function reads only stored state). -/
theorem therm_temperature_freshness (last_update now max_age_ms : Nat)
    (lock_poisoned : Bool) (temp : ℚ) (h : last_update ≤ now) :
    (ThermController.temperature last_update now max_age_ms lock_poisoned temp =
        .error .NoFreshData ↔ last_update = 0 ∨ now - last_update > max_age_ms) ∧
    (ThermController.temperature last_update now max_age_ms lock_poisoned temp =
        .ok temp ↔ lock_poisoned = false ∧ last_update ≠ 0 ∧
          now - last_update ≤ max_age_ms) := by
  unfold ThermController.temperature
  split_ifs with h1 h2 h3 <;> simp_all
  omega

/-- C2 witness: a sample stored at 5 ms read at 10 ms with a 100 ms
window is fresh. -/
theorem therm_temperature_freshness_witness :
    (5 : Nat) ≤ 10 ∧
    ThermController.temperature 5 10 100 false 22 = .ok 22 :=
  ⟨by decide,
    (therm_temperature_freshness 5 10 100 false 22 (by decide)).2.mpr (by decide)⟩

/-- C4: the emulator's command processing: `TurnOn` sets the shared state
active at the configured rating and answers `Ok` with the new snapshot;
`TurnOff` deactivates it at power 0 and answers `Ok` with the new
snapshot; `Power` answers `Ok` with the current snapshot and leaves the
state unchanged. -/
theorem emulator_process_command_semantics (state : SocketState)
    (config : EmulatorConfig) :
    SocketEmulator.process_command .TurnOn state config =
      ({ state with active := true, current_power := config.power_rating },
        .Ok ⟨true, config.power_rating, state.device_id⟩) ∧
    SocketEmulator.process_command .TurnOff state config =
      ({ state with active := false, current_power := 0 },
        .Ok ⟨false, 0, state.device_id⟩) ∧
    SocketEmulator.process_command .Power state config =
      (state, .Ok state.to_data) :=
  ⟨rfl, rfl, rfl⟩

/-- C6: when the device answers `Error`, the operation surfaces
`DeviceError` to the caller and the local outlet model is exactly the
model from before the call. -/
theorem socket_error_path_atomic (socket : SmartSocket) (message : String) :
    SocketController.send_command_and_sync socket (.Error message) =
      (socket, .error (.DeviceError message)) :=
  rfl

/-- C7 (counterexample): `SmartSocket::set_current_power` sets the power
field without touching `active`: on a fresh (inactive) socket it yields
`active = false` with `power = 1000 ≠ 0`, violating the outlet
invariant (this matches the crate's own `set_current_power` unit test). -/
theorem set_current_power_invariant_counterexample :
    ((SmartSocket.new 1500).set_current_power 1000).is_active = false ∧
    ((SmartSocket.new 1500).set_current_power 1000).current_power = 1000 ∧
    (1000 : ℚ) ≠ 0 :=
  ⟨rfl, rfl, by norm_num⟩

/-- C7 (amended): the outlet invariant holds for the initial states and
after every sequence of operations that the two subsystems actually
perform — any emulator command sequence from its initial shared state,
and any sequence of received responses folded through the controller's
synchronization (which mutates only via `turn_on`/`turn_off`); the
invariant is established outright by `turn_on`/`turn_off` themselves.
`SmartSocket::set_current_power` is excluded: it can break the
invariant (see the counterexample), but neither subsystem calls it. -/
theorem outlet_invariant_preserved :
    (∀ rating : ℚ, (SmartSocket.new rating).invariant) ∧
    (∀ s : SmartSocket, s.turn_on.invariant ∧ s.turn_off.invariant) ∧
    (∀ (responses : List (SocketResponse ℚ)) (rating : ℚ),
      (SocketController.run_syncs responses (SmartSocket.new rating)).invariant) ∧
    (∀ (config : EmulatorConfig) (commands : List SocketCommand),
      SocketState.invariant config.power_rating
        (SocketEmulator.run_commands commands
          (SocketState.new.with_device_id config.device_id) config)) :=
  ⟨SmartSocket.invariant_new,
    fun s => ⟨SmartSocket.invariant_turn_on s, SmartSocket.invariant_turn_off s⟩,
    fun rs rating =>
      SocketController.run_syncs_invariant rs _ (SmartSocket.invariant_new rating),
    fun config cmds =>
      SocketEmulator.run_commands_invariant cmds _ config
        (show _ ∧ _ from ⟨fun _ => rfl, fun h => Bool.noConfusion h⟩)⟩

/-- C7 witness: the invariant after the end-to-end command sequence
TurnOn, Power, TurnOff on a 2000 W emulator. -/
theorem outlet_invariant_preserved_witness :
    SocketState.invariant 2000
      (SocketEmulator.run_commands [.TurnOn, .Power, .TurnOff]
        (SocketState.new.with_device_id "socket_emulator")
        ⟨"127.0.0.1:0", 2000, "socket_emulator"⟩) :=
  outlet_invariant_preserved.2.2.2 ⟨"127.0.0.1:0", 2000, "socket_emulator"⟩
    [.TurnOn, .TurnOff, .Power]

/-- C8: controller failures are surfaced as typed results and never
converted into a default success.  For the thermometer: the listener is
the therm lock's only writer, and it validates the received temperature
(`Celsius::new`, line 120) before taking the write lock, so the
revalidation inside the guard (`set_temperature`, line 126) cannot
panic — no datagram, well-formed or not (including one carrying −300°),
can poison the lock, making the `unwrap_or_else` fallback in `device()`
unreachable; with the lock thus always healthy, `device()` returns the
true stored state.  For the socket controller: a lock failure during
`device()` is surfaced as `Err(LockError)` and a device-reported failure
as `Err(DeviceError)` — never a fabricated value. -/
theorem controller_failures_surface_typed :
    (∀ (therm : SmartTherm) (now : Nat) (datagram : Option (ThermData ℚ)),
      listener_handle_datagram therm now datagram ≠ .poisoned_lock) ∧
    (∀ therm : SmartTherm, ThermController.device false therm = therm) ∧
    (∀ socket : SmartSocket,
      SocketController.device true socket = .error .LockError ∧
      SocketController.device false socket = .ok socket) ∧
    (∀ (socket : SmartSocket) (message : String),
      (SocketController.send_command_and_sync socket (.Error message)).2 =
        .error (.DeviceError message)) := by
  refine ⟨?_, fun _ => rfl, fun _ => ⟨rfl, rfl⟩, fun _ _ => rfl⟩
  intro therm now datagram
  cases datagram with
  | none => simp [listener_handle_datagram]
  | some data =>
    cases hc : Celsius.new data.temperature with
    | none => simp [listener_handle_datagram, hc]
    | some c =>
      simp [listener_handle_datagram, hc, SmartTherm.set_temperature]

/-- C8 witness: a −300° datagram (the nearest candidate for poisoning
the lock) dies before the lock, and both device reads behave as
claimed at concrete inputs. -/
theorem controller_failures_surface_typed_witness :
    listener_handle_datagram (SmartTherm.new 20) 5 (some ⟨-300, none⟩) ≠
      .poisoned_lock ∧
    ThermController.device false (SmartTherm.new 25) = SmartTherm.new 25 ∧
    SocketController.device true (SmartSocket.new 1500) = .error .LockError :=
  ⟨controller_failures_surface_typed.1 (SmartTherm.new 20) 5 (some ⟨-300, none⟩),
    controller_failures_surface_typed.2.1 (SmartTherm.new 25),
    (controller_failures_surface_typed.2.2.1 (SmartSocket.new 1500)).1⟩

/-- C9: one simulation step is bounded by its scenario: for any start
`t` and any outcome of the requested random draw, Fire lands in
`[t+1, t+3]`, Freeze in `[t−3, t−1]`, Normal in `[t−0.5, t+0.5]` and
Fluctuate in `[t−2, t+2]`. -/
theorem update_temperature_scenario_bounds (t draw : ℚ)
    (scenario : EmulationScenario)
    (h : ThermEmulator.draw_range scenario draw) :
    (scenario = .Fire →
      t + 1 ≤ ThermEmulator.update_temperature t scenario draw ∧
      ThermEmulator.update_temperature t scenario draw ≤ t + 3) ∧
    (scenario = .Freeze →
      t - 3 ≤ ThermEmulator.update_temperature t scenario draw ∧
      ThermEmulator.update_temperature t scenario draw ≤ t - 1) ∧
    (scenario = .Normal →
      t - 1/2 ≤ ThermEmulator.update_temperature t scenario draw ∧
      ThermEmulator.update_temperature t scenario draw ≤ t + 1/2) ∧
    (scenario = .Fluctuate →
      t - 2 ≤ ThermEmulator.update_temperature t scenario draw ∧
      ThermEmulator.update_temperature t scenario draw ≤ t + 2) := by
  cases scenario <;> obtain ⟨h1, h2⟩ := h <;>
    refine ⟨?_, ?_, ?_, ?_⟩ <;> intro he <;>
    simp only [ThermEmulator.update_temperature] <;>
    first
      | exact absurd he (by decide)
      | exact ⟨by linarith, by linarith⟩

/-- C9 witness: a Fire step from 20° with draw 2 lands in `[21, 23]`. -/
theorem update_temperature_scenario_bounds_witness :
    ThermEmulator.draw_range .Fire 2 ∧
    ((20 : ℚ) + 1 ≤ ThermEmulator.update_temperature 20 .Fire 2 ∧
      ThermEmulator.update_temperature 20 .Fire 2 ≤ 20 + 3) :=
  ⟨by norm_num [ThermEmulator.draw_range],
    (update_temperature_scenario_bounds 20 2 .Fire
      (by norm_num [ThermEmulator.draw_range])).1 rfl⟩

/-! ## Wire framing lemmas -/

/-- The length header is always four bytes. -/
theorem toBE32_length (n : Nat) : (toBE32 n).length = 4 :=
  rfl

/-- Reading the header back gives the byte length modulo `2^32` — the
`usize → u32` cast wraps. -/
theorem fromBE32_toBE32 (n : Nat) : fromBE32 (toBE32 n) = n % 2 ^ 32 := by
  simp only [toBE32, fromBE32]
  omega

/-- `read_exact` consumes exactly a known prefix. -/
theorem read_exact_append (l rest : List Nat) :
    read_exact l.length (l ++ rest) = some (l, rest) := by
  simp [read_exact, List.take_left, List.drop_left]

/-- Evaluation of `receive_message` on a stream beginning with the header
of a declared length `L < 2^32`: the DoS guard fires first, independently
of what (if anything) follows the header; otherwise exactly `L` payload
bytes are consumed, or `UnexpectedEof` results when fewer are present. -/
theorem receive_message_eq (L : Nat) (rest : List Nat) (hL : L < 2 ^ 32) :
    receive_message (toBE32 L ++ rest) =
      if MAX_MESSAGE_SIZE < L then .error .MessageTooLarge
      else if rest.length < L then .error .UnexpectedEof
      else
        match utf8_decode (rest.take L) with
        | some chars => .ok (chars, rest.drop L)
        | none => .error .InvalidUtf8 := by
  have h4 : read_exact 4 (toBE32 L ++ rest) = some (toBE32 L, rest) := by
    have := read_exact_append (toBE32 L) rest
    rwa [toBE32_length] at this
  have hmod : fromBE32 (toBE32 L) = L := by
    rw [fromBE32_toBE32]; exact Nat.mod_eq_of_lt hL
  unfold receive_message
  rw [h4]
  simp only [hmod]
  by_cases hbig : MAX_MESSAGE_SIZE < L
  · simp [hbig]
  · simp only [hbig, if_false, gt_iff_lt, if_neg hbig]
    by_cases hlen : rest.length < L
    · have : read_exact L rest = none := by
        simp [read_exact]; omega
      rw [this]
      simp [hlen]
    · have : read_exact L rest = some (rest.take L, rest.drop L) := by
        simp [read_exact]; omega
      rw [this]
      simp only [hlen, if_false]
      cases utf8_decode (rest.take L) <;> rfl

/-! ## Claim theorems: wire framing -/

/-- C5: frame decoding fails with the size-limit error whenever the
declared big-endian length exceeds 1 MiB (1,048,576), for any suffix of
the stream — in particular without reading any payload; for a declared
length of at most 1 MiB the check passes and exactly that many payload
bytes are consumed (`take L`/`drop L`), with an end-of-stream error when
the stream holds fewer than `L` bytes. -/
theorem receive_message_size_guard (L : Nat) (rest : List Nat) (hL : L < 2 ^ 32) :
    (MAX_MESSAGE_SIZE < L →
      receive_message (toBE32 L ++ rest) = .error .MessageTooLarge) ∧
    (L ≤ MAX_MESSAGE_SIZE → rest.length < L →
      receive_message (toBE32 L ++ rest) = .error .UnexpectedEof) ∧
    (L ≤ MAX_MESSAGE_SIZE → L ≤ rest.length →
      receive_message (toBE32 L ++ rest) =
        match utf8_decode (rest.take L) with
        | some chars => .ok (chars, rest.drop L)
        | none => .error .InvalidUtf8) := by
  refine ⟨fun hbig => ?_, fun hsmall hshort => ?_, fun hsmall hlong => ?_⟩ <;>
    rw [receive_message_eq L rest hL]
  · simp [hbig]
  · rw [if_neg (by omega), if_pos hshort]
  · rw [if_neg (by omega), if_neg (by omega)]

/-- C5 witness: a declared length of 1,048,577 is rejected as too large
even on a stream that ends right after the header. -/
theorem receive_message_size_guard_witness :
    receive_message (toBE32 1048577 ++ []) = .error .MessageTooLarge :=
  (receive_message_size_guard 1048577 [] (by norm_num)).1 (by norm_num [MAX_MESSAGE_SIZE])

/-- C10: the sender performs no size check: for every message the frame
is the 4-byte big-endian header followed by the whole payload, and the
header decodes to the payload byte length modulo `2^32`.  For payloads
shorter than `2^32` bytes the header is exact — so an over-1-MiB payload
is sent in full and only the receiver rejects it — while a payload of
`2^32` bytes or more gets a wrapped header that no longer equals the
true length. -/
theorem send_message_header_wraps (message : List Char) :
    (send_message message).take 4 = toBE32 (utf8_encode message).length ∧
    (send_message message).drop 4 = utf8_encode message ∧
    fromBE32 ((send_message message).take 4) =
      (utf8_encode message).length % 2 ^ 32 ∧
    ((utf8_encode message).length < 2 ^ 32 →
      fromBE32 ((send_message message).take 4) = (utf8_encode message).length) ∧
    (MAX_MESSAGE_SIZE < (utf8_encode message).length →
      (utf8_encode message).length < 2 ^ 32 →
      receive_message (send_message message) = .error .MessageTooLarge) ∧
    (2 ^ 32 ≤ (utf8_encode message).length →
      fromBE32 ((send_message message).take 4) ≠ (utf8_encode message).length) := by
  have htake : (send_message message).take 4 = toBE32 (utf8_encode message).length := by
    unfold send_message
    rw [show (4 : Nat) = (toBE32 (utf8_encode message).length).length from rfl,
      List.take_left]
  have hdrop : (send_message message).drop 4 = utf8_encode message := by
    unfold send_message
    rw [show (4 : Nat) = (toBE32 (utf8_encode message).length).length from rfl,
      List.drop_left]
  refine ⟨htake, hdrop, ?_, ?_, ?_, ?_⟩
  · rw [htake, fromBE32_toBE32]
  · intro hlt
    rw [htake, fromBE32_toBE32]
    exact Nat.mod_eq_of_lt hlt
  · intro hbig hlt
    show receive_message (toBE32 (utf8_encode message).length ++ utf8_encode message) =
      .error .MessageTooLarge
    rw [receive_message_eq _ _ hlt, if_pos hbig]
  · intro hge
    rw [htake, fromBE32_toBE32]
    have : (utf8_encode message).length % 2 ^ 32 < 2 ^ 32 :=
      Nat.mod_lt _ (by norm_num)
    omega

/-- C10 witness: for the 3-byte payload `abc` the header reads back as
exactly 3. -/
theorem send_message_header_wraps_witness :
    fromBE32 ((send_message "abc".data).take 4) = (utf8_encode "abc".data).length :=
  (send_message_header_wraps "abc".data).2.2.2.1 (by decide)

/-! ## JSON printer/parser inversion -/

/-- Parsing a string body inverts escaping: the escaped text followed by
the closing quote parses back to the original text, leaving the rest. -/
theorem parse_string_body_escape (s rest : List Char) :
    parse_string_body (escape_string s ++ '"' :: rest) = some (s, rest) := by
  unfold parse_string_body
  induction s with
  | nil => simp [escape_string, parse_string_impl]
  | cons c cs ih =>
    by_cases hc : c = '"' ∨ c = '\\'
    · simp only [escape_string, if_pos hc, List.cons_append]
      simp [parse_string_impl, hc, ih]
    · have h1 : c ≠ '"' := fun h => hc (Or.inl h)
      have h2 : c ≠ '\\' := fun h => hc (Or.inr h)
      simp only [escape_string, if_neg hc, List.cons_append]
      simp [parse_string_impl, h1, h2, ih]

/-- A number token followed by a non-number character splits exactly at
the token boundary. -/
theorem takeWhile_num_append (l : List Char) (d : Char) (t : List Char)
    (h1 : ∀ c ∈ l, num_char c = true) (h2 : num_char d = false) :
    (l ++ d :: t).takeWhile num_char = l ∧
    (l ++ d :: t).dropWhile num_char = d :: t := by
  induction l with
  | nil => simp [List.takeWhile_cons, List.dropWhile_cons, h2]
  | cons c cs ih =>
    have hc : num_char c = true := h1 c (by simp)
    have ih' := ih fun x hx => h1 x (by simp [hx])
    simp [List.takeWhile_cons, List.dropWhile_cons, hc, ih'.1, ih'.2]

/-- A character that can start a number token is not the first character
of any keyword or string literal. -/
theorem num_start_ne_keyword (c : Char) (h : num_start c = true) :
    c ≠ 'n' ∧ c ≠ 't' ∧ c ≠ 'f' ∧ c ≠ '"' := by
  refine ⟨?_, ?_, ?_, ?_⟩ <;> rintro rfl <;> revert h <;> decide

/-- Parsing a scalar inverts printing when the next character is a
member separator or the closing brace. -/
theorem parse_scalar_print (v : JVal) (e : Char) (rest : List Char)
    (hv : jval_tok_wf v) (he : e = ',' ∨ e = '\x7d') :
    parse_scalar (print_scalar v ++ e :: rest) = some (v, e :: rest) := by
  have hne : num_char e = false := by rcases he with rfl | rfl <;> decide
  cases v with
  | null => simp [print_scalar, parse_scalar, expect_lit]
  | bool b => cases b <;> simp [print_scalar, parse_scalar, expect_lit]
  | str s =>
    simp only [print_scalar, List.cons_append, List.append_assoc,
      List.singleton_append]
    simp [parse_scalar, parse_string_body_escape]
  | num tok =>
    have hwf : num_tok_wf tok := hv
    obtain ⟨hstart, hall⟩ := hwf
    rcases htd : tok.data with _ | ⟨c, cs⟩
    · rw [htd] at hstart
      exact hstart.elim
    · rw [htd] at hstart hall
      obtain ⟨h1, h2, h3, h4⟩ := num_start_ne_keyword c hstart
      have hsplit := takeWhile_num_append cs e rest
        (fun x hx => hall x (by simp [hx])) hne
      simp only [print_scalar, htd, List.cons_append]
      simp [parse_scalar, h1, h2, h3, h4, hstart, hsplit.1, hsplit.2, ← htd]

/-- Each printed member contributes at least one character. -/
theorem print_members_length_ge (m : List (String × JVal)) :
    m.length ≤ (print_members m).length := by
  induction m with
  | nil => simp [print_members]
  | cons p ps ih =>
    have hp : 1 ≤ (print_pair p).length := by simp [print_pair]
    cases ps with
    | nil => simpa [print_members] using hp
    | cons q qs =>
      simp only [print_members, List.length_append, List.length_cons] at *
      omega

/-- Parsing the member list inverts printing: the printed members
followed by the closing brace parse back to the member list, for any
fuel of at least the number of members. -/
theorem parse_members_print (m : List (String × JVal)) (fuel : Nat)
    (hm : m ≠ []) (hwf : members_tok_wf m) (hfuel : m.length ≤ fuel)
    (rest : List Char) :
    parse_members fuel (print_members m ++ '\x7d' :: rest) = some (m, rest) := by
  induction m generalizing fuel rest with
  | nil => exact absurd rfl hm
  | cons p ps ih =>
    cases fuel with
    | zero => simp at hfuel
    | succ f =>
      have hp : jval_tok_wf p.2 := hwf p (by simp)
      cases ps with
      | nil =>
        have hscalar := parse_scalar_print p.2 '\x7d' rest hp (Or.inr rfl)
        have hstr := parse_string_body_escape p.1.data
          (':' :: (print_scalar p.2 ++ '\x7d' :: rest))
        simp only [print_members, print_pair, List.cons_append, List.append_assoc,
          List.cons_append]
        simp [parse_members, hstr, hscalar]
      | cons q qs =>
        have hscalar := parse_scalar_print p.2 ','
          (print_members (q :: qs) ++ '\x7d' :: rest) hp (Or.inl rfl)
        have hstr := parse_string_body_escape p.1.data
          (':' :: (print_scalar p.2 ++ ',' :: (print_members (q :: qs) ++ '\x7d' :: rest)))
        have hih := ih f (by simp) (fun x hx => hwf x (by simp [hx]))
          (by simp at hfuel ⊢; omega) rest
        simp only [print_members, print_pair, List.cons_append, List.append_assoc,
          List.cons_append]
        simp [parse_members, hstr, hscalar, hih]

/-- Parsing a whole document inverts printing a nonempty flat object. -/
theorem parse_document_print_obj (m : List (String × JVal))
    (hm : m ≠ []) (hwf : members_tok_wf m) :
    parse_document (print_obj m) = some m := by
  obtain ⟨p, ps, rfl⟩ : ∃ p ps, m = p :: ps := by
    cases m with
    | nil => exact absurd rfl hm
    | cons p ps => exact ⟨p, ps, rfl⟩
  obtain ⟨t, ht⟩ : ∃ t, print_members (p :: ps) = '"' :: t := by
    cases ps <;> exact ⟨_, rfl⟩
  have hmem := parse_members_print (p :: ps)
    ((print_members (p :: ps) ++ ['\x7d']).length) hm hwf
    (by
      have := print_members_length_ge (p :: ps)
      simp only [List.length_append, List.length_cons, List.length_nil] at this ⊢
      omega) []
  simp only [List.length_append, List.length_cons, List.length_nil] at hmem
  simp only [print_obj, parse_document, parse_obj, ht, List.cons_append]
  rw [← List.cons_append, ← ht]
  simp [hmem]

/-- The derived command deserializer inverts the serializer. -/
theorem command_from_json_to_json (c : SocketCommand) :
    SocketCommand.from_json (SocketCommand.to_json c) = some c := by
  cases c <;> rfl

/-- The derived response deserializer inverts the serializer. -/
theorem response_from_json_to_json (r : SocketResponse String) :
    SocketResponse.from_json (SocketResponse.to_json r) = some r := by
  cases r with
  | Ok d =>
    obtain ⟨a, p, id⟩ := d
    cases id <;> rfl
  | Error message => rfl

/-- The derived thermometer-sample deserializer inverts the serializer. -/
theorem therm_from_json_to_json (d : ThermData String) :
    ThermData.from_json (ThermData.to_json d) = some d := by
  obtain ⟨t, id⟩ := d
  cases id <;> rfl

/-! ## UTF-8 lemmas (ASCII fragment) -/

/-- On ASCII text, UTF-8 encoding is one byte per character. -/
theorem utf8_encode_ascii (s : List Char) (h : ∀ c ∈ s, c.toNat < 0x80) :
    utf8_encode s = s.map Char.toNat := by
  induction s with
  | nil => rfl
  | cons c cs ih =>
    have hc : c.toNat < 0x80 := h c (by simp)
    have ih' := ih fun x hx => h x (by simp [hx])
    simp only [utf8_encode] at ih' ⊢
    simp [utf8_encode_char, hc, ih']

/-- Decoding inverts the one-byte-per-character encoding of ASCII text. -/
theorem utf8_decode_map_toNat (s : List Char) (h : ∀ c ∈ s, c.toNat < 0x80) :
    utf8_decode_impl none (s.map Char.toNat) = some s := by
  induction s with
  | nil => rfl
  | cons c cs ih =>
    have hc : c.toNat < 0x80 := h c (by simp)
    have ih' := ih fun x hx => h x (by simp [hx])
    simp [utf8_decode_impl, hc, ih', Char.ofNat_toNat]

/-- UTF-8 round trip on ASCII text. -/
theorem utf8_decode_encode_ascii (s : List Char) (h : ∀ c ∈ s, c.toNat < 0x80) :
    utf8_decode (utf8_encode s) = some s := by
  rw [utf8_decode, utf8_encode_ascii s h]
  exact utf8_decode_map_toNat s h

/-! ## ASCII propagation from payloads to the serialized text -/

/-- Escaping preserves the ASCII bound (it only inserts `\`). -/
theorem escape_string_ascii (s : List Char) (h : ∀ c ∈ s, c.toNat < 0x80) :
    ∀ c ∈ escape_string s, c.toNat < 0x80 := by
  induction s with
  | nil => simp [escape_string]
  | cons c cs ih =>
    have hc := h c (by simp)
    have ih' := ih fun x hx => h x (by simp [hx])
    by_cases hesc : c = '"' ∨ c = '\\'
    · simp only [escape_string, if_pos hesc]
      intro x hx
      simp only [List.mem_cons] at hx
      rcases hx with rfl | rfl | hx
      · decide
      · exact hc
      · exact ih' x hx
    · simp only [escape_string, if_neg hesc]
      intro x hx
      simp only [List.mem_cons] at hx
      rcases hx with rfl | hx
      · exact hc
      · exact ih' x hx

/-- Number-token characters are ASCII. -/
theorem num_char_ascii (c : Char) (h : num_char c = true) : c.toNat < 0x80 := by
  simp only [num_char, Bool.or_eq_true, Bool.and_eq_true, decide_eq_true_eq] at h
  rcases h with ((((⟨h1, h2⟩ | rfl) | rfl) | rfl) | rfl) | rfl
  · omega
  all_goals decide

/-- The printed scalar is ASCII when its payload is. -/
theorem print_scalar_ascii (v : JVal) (h : jval_ascii v) :
    ∀ c ∈ print_scalar v, c.toNat < 0x80 := by
  cases v with
  | null =>
    intro c hc
    simp only [print_scalar, List.mem_cons, List.not_mem_nil, or_false] at hc
    rcases hc with rfl | rfl | rfl | rfl <;> decide
  | bool b =>
    cases b <;> intro c hc <;> simp [print_scalar] at hc
    · rcases hc with rfl | rfl | rfl | rfl | rfl <;> decide
    · rcases hc with rfl | rfl | rfl | rfl <;> decide
  | num tok => exact h
  | str s =>
    intro c hc
    simp only [print_scalar, List.mem_cons, List.mem_append] at hc
    rcases hc with rfl | hc | hc
    · decide
    · exact escape_string_ascii s.data h c hc
    · simp only [List.mem_cons, List.not_mem_nil, or_false] at hc
      subst hc
      decide

/-- The printed member is ASCII when key and payload are. -/
theorem print_pair_ascii (p : String × JVal)
    (hk : ∀ c ∈ p.1.data, c.toNat < 0x80) (hv : jval_ascii p.2) :
    ∀ c ∈ print_pair p, c.toNat < 0x80 := by
  intro c hc
  simp only [print_pair, List.mem_cons, List.mem_append] at hc
  rcases hc with rfl | hc | rfl | rfl | hc
  · decide
  · exact escape_string_ascii _ hk c hc
  · decide
  · decide
  · exact print_scalar_ascii _ hv c hc

/-- The printed member list is ASCII when all members are. -/
theorem print_members_ascii (m : List (String × JVal)) (h : members_ascii m) :
    ∀ c ∈ print_members m, c.toNat < 0x80 := by
  induction m with
  | nil => simp [print_members]
  | cons p ps ih =>
    have hp := h p (by simp)
    have ih' := ih fun x hx => h x (by simp [hx])
    cases ps with
    | nil => exact print_pair_ascii p hp.1 hp.2
    | cons q qs =>
      intro c hc
      simp only [print_members, List.mem_append, List.mem_cons] at hc
      rcases hc with hc | rfl | hc
      · exact print_pair_ascii p hp.1 hp.2 c hc
      · decide
      · exact ih' c hc

/-- The printed object is ASCII when all members are. -/
theorem print_obj_ascii (m : List (String × JVal)) (h : members_ascii m) :
    ∀ c ∈ print_obj m, c.toNat < 0x80 := by
  intro c hc
  simp only [print_obj, List.mem_cons, List.mem_append] at hc
  rcases hc with rfl | hc | hc
  · decide
  · exact print_members_ascii m h c hc
  · simp only [List.mem_cons, List.not_mem_nil, or_false] at hc
    subst hc
    decide

/-! ## Frame and serde composition -/

/-- A full frame round trip of an ASCII message within the size limit:
the receiver returns the sent message and consumes the whole stream. -/
theorem receive_message_send_message (s : List Char)
    (hascii : ∀ c ∈ s, c.toNat < 0x80) (hlen : s.length ≤ MAX_MESSAGE_SIZE) :
    receive_message (send_message s) = .ok (s, []) := by
  have henc := utf8_encode_ascii s hascii
  have hlen2 : (utf8_encode s).length = s.length := by rw [henc, List.length_map]
  have hlt : (utf8_encode s).length < 2 ^ 32 := by
    have : MAX_MESSAGE_SIZE < 2 ^ 32 := by norm_num [MAX_MESSAGE_SIZE]
    omega
  have hrecv := receive_message_eq (utf8_encode s).length (utf8_encode s) hlt
  simp only [send_message]
  rw [hrecv, if_neg (by omega), if_neg (by omega)]
  simp [List.take_length, List.drop_length, utf8_decode_encode_ascii s hascii]

/-- The serialized response has parseable member values. -/
theorem response_to_json_tok_wf (r : SocketResponse String) (h : response_wf r) :
    members_tok_wf (SocketResponse.to_json r) := by
  cases r with
  | Ok d =>
    intro p hp
    simp only [SocketResponse.to_json, List.mem_cons, List.not_mem_nil, or_false] at hp
    rcases hp with rfl | rfl | rfl | rfl
    · trivial
    · trivial
    · exact h.1
    · cases d.device_id <;> trivial
  | Error message =>
    intro p hp
    simp only [SocketResponse.to_json, List.mem_cons, List.not_mem_nil, or_false] at hp
    rcases hp with rfl | rfl <;> trivial

/-- The serialized response is ASCII when its payloads are well-formed. -/
theorem response_to_json_ascii (r : SocketResponse String) (h : response_wf r) :
    members_ascii (SocketResponse.to_json r) := by
  cases r with
  | Ok d =>
    obtain ⟨hnum, hopt⟩ := h
    intro p hp
    simp only [SocketResponse.to_json, List.mem_cons, List.not_mem_nil, or_false] at hp
    rcases hp with rfl | rfl | rfl | rfl
    · exact ⟨(by decide : ∀ c ∈ "result".data, c.toNat < 0x80),
        (by decide : ∀ c ∈ "ok".data, c.toNat < 0x80)⟩
    · exact ⟨(by decide : ∀ c ∈ "active".data, c.toNat < 0x80), trivial⟩
    · exact ⟨(by decide : ∀ c ∈ "power".data, c.toNat < 0x80),
        fun c hc => num_char_ascii c (hnum.2 c hc)⟩
    · refine ⟨(by decide : ∀ c ∈ "device_id".data, c.toNat < 0x80), ?_⟩
      rcases hd : d.device_id with _ | s
      · trivial
      · rw [hd] at hopt
        exact fun c hc => (hopt c hc).2
  | Error message =>
    intro p hp
    simp only [SocketResponse.to_json, List.mem_cons, List.not_mem_nil, or_false] at hp
    rcases hp with rfl | rfl
    · exact ⟨(by decide : ∀ c ∈ "result".data, c.toNat < 0x80),
        (by decide : ∀ c ∈ "error".data, c.toNat < 0x80)⟩
    · exact ⟨(by decide : ∀ c ∈ "message".data, c.toNat < 0x80),
        fun c hc => (h c hc).2⟩

/-- The serialized thermometer sample has parseable member values. -/
theorem therm_to_json_tok_wf (d : ThermData String) (h : therm_wf d) :
    members_tok_wf (ThermData.to_json d) := by
  intro p hp
  simp only [ThermData.to_json, List.mem_cons, List.not_mem_nil, or_false] at hp
  rcases hp with rfl | rfl
  · exact h.1
  · cases d.device_id <;> trivial

/-- Deserializing the serialized response yields it back. -/
theorem from_str_to_string_response (r : SocketResponse String)
    (h : response_wf r) :
    from_str_response (to_string_response r) = some r := by
  have hne : SocketResponse.to_json r ≠ [] := by
    cases r <;> simp [SocketResponse.to_json]
  unfold from_str_response to_string_response
  rw [parse_document_print_obj _ hne (response_to_json_tok_wf r h)]
  simp [response_from_json_to_json r]

/-- Deserializing the serialized thermometer sample yields it back. -/
theorem from_str_to_string_therm (d : ThermData String) (h : therm_wf d) :
    from_str_therm (to_string_therm d) = some d := by
  have hne : ThermData.to_json d ≠ [] := by simp [ThermData.to_json]
  unfold from_str_therm to_string_therm
  rw [parse_document_print_obj _ hne (therm_to_json_tok_wf d h)]
  simp [therm_from_json_to_json d]

/-! ## Claim theorems: wire round trip -/

/-- C3 (amended): the wire round trip is the identity within the
receiver's size limit — every command round-trips unconditionally (its
frames are tiny); a response or thermometer sample round-trips whenever
its payloads are well-formed (printable-ASCII strings; a number token as
`serde_json` prints for a finite double) and, for the TCP-framed
response, its serialized text is at most 1,048,576 bytes.  A response
whose serialization exceeds the limit is rejected by the receiver (see
the counterexample). -/
theorem wire_round_trip_bounded :
    (∀ c : SocketCommand, round_trip_command c = some c) ∧
    (∀ r : SocketResponse String, response_wf r →
      (to_string_response r).length ≤ MAX_MESSAGE_SIZE →
      round_trip_response r = some r) ∧
    (∀ d : ThermData String, therm_wf d → round_trip_therm d = some d) := by
  refine ⟨?_, ?_, ?_⟩
  · intro c
    cases c <;> decide
  · intro r hwf hlen
    have hascii : ∀ c ∈ to_string_response r, c.toNat < 0x80 :=
      print_obj_ascii _ (response_to_json_ascii r hwf)
    unfold round_trip_response
    rw [receive_message_send_message (to_string_response r) hascii hlen]
    exact from_str_to_string_response r hwf
  · intro d hwf
    exact from_str_to_string_therm d hwf

/-- C3 witness: a command, a 2000 W snapshot response and a 22.5°
sample each survive the round trip. -/
theorem wire_round_trip_bounded_witness :
    round_trip_command .TurnOn = some .TurnOn ∧
    round_trip_response (.Ok ⟨true, "2000.0", some "socket_emulator"⟩) =
      some (.Ok ⟨true, "2000.0", some "socket_emulator"⟩) ∧
    round_trip_therm ⟨"22.5", some "kitchen_001"⟩ =
      some ⟨"22.5", some "kitchen_001"⟩ :=
  ⟨wire_round_trip_bounded.1 .TurnOn,
    wire_round_trip_bounded.2.1 _ (by decide) (by decide),
    wire_round_trip_bounded.2.2 _ (by decide)⟩

/-- Escaping is the identity on a run of `x` characters. -/
theorem escape_string_replicate_x (n : Nat) :
    escape_string (List.replicate n 'x') = List.replicate n 'x' := by
  induction n with
  | zero => rfl
  | succ k ih => simp [List.replicate_succ, escape_string, ih]

/-- The oversized response has well-formed (plain ASCII) payloads. -/
theorem big_response_wf : response_wf big_response := by
  intro c hc
  have hx : c = 'x' := List.eq_of_mem_replicate hc
  subst hx
  decide

/-- An error response with an escape-free message serializes to the
message plus 31 characters of fixed JSON syntax. -/
theorem to_string_error_length (msg : String)
    (h : escape_string msg.data = msg.data) :
    (to_string_response (.Error msg)).length = msg.data.length + 31 := by
  simp only [to_string_response, SocketResponse.to_json, print_obj,
    print_members, print_pair, print_scalar, h]
  simp [escape_string, List.length_append]

/-- The oversized response serializes to exactly `2^20 + 31`
characters. -/
theorem to_string_big_length :
    (to_string_response big_response).length = 2 ^ 20 + 31 := by
  have h := to_string_error_length big_message (escape_string_replicate_x (2 ^ 20))
  rw [show big_response = .Error big_message from rfl, h,
    show big_message.data = List.replicate (2 ^ 20) 'x' from rfl,
    List.length_replicate]

/-- A receive-side failure makes the whole round trip return nothing. -/
theorem round_trip_response_of_error (r : SocketResponse String) (e : RecvError)
    (h : receive_message (send_message (to_string_response r)) = .error e) :
    round_trip_response r = none := by
  unfold round_trip_response
  rw [h]

/-- C3 (counterexample): the round trip is not the identity for every
value — a `SocketResponse::Error` whose message is 2^20 `x` characters
serializes to a frame whose declared length (2^20 + 31 bytes) exceeds
the receiver's 1 MiB limit, so the receive side fails with the
size-limit error and the round trip does not return the response. -/
theorem round_trip_oversize_counterexample :
    receive_message (send_message (to_string_response big_response)) =
      .error .MessageTooLarge ∧
    round_trip_response big_response = none := by
  have hascii : ∀ c ∈ to_string_response big_response, c.toNat < 0x80 :=
    print_obj_ascii _ (response_to_json_ascii _ big_response_wf)
  have henc := utf8_encode_ascii _ hascii
  have hblen : (utf8_encode (to_string_response big_response)).length =
      2 ^ 20 + 31 := by
    rw [henc, List.length_map, to_string_big_length]
  have hrecv := receive_message_eq
    (utf8_encode (to_string_response big_response)).length
    (utf8_encode (to_string_response big_response))
    (by rw [hblen]; norm_num)
  have hfail : receive_message (send_message (to_string_response big_response)) =
      .error .MessageTooLarge := by
    simp only [send_message]
    rw [hrecv, if_pos (by rw [hblen]; norm_num [MAX_MESSAGE_SIZE])]
  exact ⟨hfail, round_trip_response_of_error big_response .MessageTooLarge hfail⟩
